import Mathlib

/-!
Verification of the mcp-ssh-sre repository against its natural-language
specification.

The repository snapshot contains the tool-registration modules
(`src/vm-tools.ts`, `src/docker-network-tools.ts`, the docker-advanced and
index modules embedded in the same files), `src/logger.ts`, tests and
documentation.  The implementation files `src/filters.ts`,
`src/ssh-manager.ts` and `src/platforms/registry.ts` are not present in the
snapshot; the definitions for those components below are modelled from the
specification (their doc comments start with `Modelled from the spec:`).
Everything else is translated directly from the TypeScript sources.
-/

/-! ## Filter pipeline (spec §4.3)

Lines of a text are modelled as the chunks obtained by splitting on the
newline character, exactly the view used by the spec's concrete scenarios
(e.g. "a\na\nb\na" is the four lines a, a, b, a).  The byte stream flowing
between the stages of the remote shell pipeline is modelled by its list of
lines.
-/

/-- Splits a character list at every occurrence of `c`.  Always returns at
least one (possibly empty) chunk, and no chunk contains `c`. -/
def splitChar (c : Char) : List Char → List (List Char)
  | [] => [[]]
  | x :: xs =>
    match splitChar c xs with
    | [] => [[]]
    | y :: ys => if x = c then [] :: y :: ys else (x :: y) :: ys

/-- The lines of a text: split on the newline character. -/
def splitLines (s : String) : List String :=
  (splitChar '\n' s.data).map String.mk

/-- Joins lines back into a text with newline separators. -/
def joinLines (ls : List String) : String :=
  String.intercalate "\n" ls

/-- Boolean prefix test on character lists. -/
def isPrefixList : List Char → List Char → Bool
  | [], _ => true
  | _ :: _, [] => false
  | a :: as, b :: bs => a == b && isPrefixList as bs

/-- Boolean substring test on character lists. -/
def containsSub (needle : List Char) : List Char → Bool
  | [] => needle.isEmpty
  | b :: bs => isPrefixList needle (b :: bs) || containsSub needle bs

/-- Modelled from the spec: the pattern-match predicate of the filter
pipeline ("case-insensitive substring/regex match when requested",
spec §4.3); the pattern is matched as a substring of the line, lowering
both sides when `ci` is set.  (`src/filters.ts` is absent from the
snapshot.) -/
def lineMatches (p : String) (ci : Bool) (l : String) : Bool :=
  if ci then containsSub (p.data.map Char.toLower) (l.data.map Char.toLower)
  else containsSub p.data l.data

/-- Lexicographic comparison of character lists, used by the sort stage. -/
def lexLe : List Char → List Char → Bool
  | [], _ => true
  | _ :: _, [] => false
  | a :: as, b :: bs => if a < b then true else if b < a then false else lexLe as bs

/-- Line comparison for the sort stage. -/
def lineLe (a b : String) : Bool := lexLe a.data b.data

/-- Stable insertion of a line into a sorted list of lines. -/
def insertLine (x : String) : List String → List String
  | [] => [x]
  | y :: ys => if lineLe x y then x :: y :: ys else y :: insertLine x ys

/-- Modelled from the spec: the sort stage ("stable ascending sort",
spec §4.3), as a stable insertion sort. -/
def sortLines : List String → List String
  | [] => []
  | x :: xs => insertLine x (sortLines xs)

/-- Modelled from the spec: the deduplication stage ("adjacent-duplicate
collapsing only (never full-set deduplication)", spec §4.3). -/
def uniqLines : List String → List String
  | [] => []
  | [x] => [x]
  | x :: y :: rest =>
    if x = y then uniqLines (y :: rest) else x :: uniqLines (y :: rest)

/-- The count modes of the final count transform (spec §4.3: "line, word,
or byte/character count"). -/
inductive CountMode where
  | lines
  | words
  | chars
deriving DecidableEq, Repr

/-- Whitespace test used by the word count. -/
def isWs (c : Char) : Bool := c = ' ' || c = '\t' || c = '\n'

/-- Counts the (maximal non-whitespace runs of) words of a character list;
the flag records whether the scan is currently inside a word. -/
def countWordsAux : List Char → Bool → Nat
  | [], _ => 0
  | c :: cs, inWord =>
    if isWs c then countWordsAux cs false
    else (if inWord then 0 else 1) + countWordsAux cs true

/-- Modelled from the spec: the final count transform over the filtered
lines (spec §4.3). -/
def countText (m : CountMode) (ls : List String) : String :=
  match m with
  | .lines => toString ls.length
  | .words => toString (countWordsAux (joinLines ls).data false)
  | .chars => toString (joinLines ls).length

/-- Modelled from the spec: the filter specification
`{grepPattern?, caseInsensitive, headCount?, tailCount?, sortEnabled,
uniqueEnabled, countMode?}` (spec §3). -/
structure FilterSpec where
  grepPattern : Option String := none
  caseInsensitive : Bool := false
  headCount : Option Nat := none
  tailCount : Option Nat := none
  sortEnabled : Bool := false
  uniqueEnabled : Bool := false
  countMode : Option CountMode := none

/-- One stage of the rendered remote pipeline. -/
inductive Stage where
  | grepStage (p : String) (ci : Bool)
  | sortStage
  | uniqStage
  | headStage (n : Nat)
  | tailStage (n : Nat)
  | countStage (m : CountMode)
deriving DecidableEq, Repr

/-- The five stage kinds of the fixed filter stage order (glossary:
"match → sort → dedupe → bound → count"). -/
inductive StageKind where
  | matchK
  | sortK
  | dedupeK
  | boundK
  | countK
deriving DecidableEq, Repr

/-- The kind of a stage. -/
def stageKind : Stage → StageKind
  | .grepStage _ _ => .matchK
  | .sortStage => .sortK
  | .uniqStage => .dedupeK
  | .headStage _ => .boundK
  | .tailStage _ => .boundK
  | .countStage _ => .countK

/-- The position of a kind in the fixed stage order. -/
def kindRank : StageKind → Nat
  | .matchK => 0
  | .sortK => 1
  | .dedupeK => 2
  | .boundK => 3
  | .countK => 4

/-- Whether the spec field corresponding to a stage kind is set
(spec §4.3: "Each stage is emitted only if the corresponding spec field
is set"). -/
def fieldRequests (spec : FilterSpec) : StageKind → Bool
  | .matchK => spec.grepPattern.isSome
  | .sortK => spec.sortEnabled
  | .dedupeK => spec.uniqueEnabled
  | .boundK => spec.headCount.isSome || spec.tailCount.isSome
  | .countK => spec.countMode.isSome

/-- The shell rendering of a single stage. -/
def renderStage : Stage → String
  | .grepStage p ci => " | grep " ++ (if ci then "-i " else "") ++ "'" ++ p ++ "'"
  | .sortStage => " | sort"
  | .uniqStage => " | uniq"
  | .headStage n => " | head -n " ++ toString n
  | .tailStage n => " | tail -n " ++ toString n
  | .countStage m =>
    " | wc " ++ (match m with | .lines => "-l" | .words => "-w" | .chars => "-c")

/-- Modelled from the spec: `toRemoteSuffix` renders the spec as a shell
pipeline suffix in the fixed stage order
"pattern match → sort → deduplicate → bound line count (head/tail) →
count (if requested)" (spec §4.3).  (`src/filters.ts` is absent from the
snapshot.) -/
def toRemoteSuffix (spec : FilterSpec) : String :=
  (match spec.grepPattern with
    | some p =>
      " | grep " ++ (if spec.caseInsensitive then "-i " else "") ++ "'" ++ p ++ "'"
    | none => "")
  ++ (if spec.sortEnabled then " | sort" else "")
  ++ (if spec.uniqueEnabled then " | uniq" else "")
  ++ (match spec.headCount with
    | some n => " | head -n " ++ toString n
    | none => "")
  ++ (match spec.tailCount with
    | some n => " | tail -n " ++ toString n
    | none => "")
  ++ (match spec.countMode with
    | some m =>
      " | wc " ++ (match m with | .lines => "-l" | .words => "-w" | .chars => "-c")
    | none => "")

/-- The ordered list of stages the rendered suffix consists of. -/
def remoteStages (spec : FilterSpec) : List Stage :=
  (match spec.grepPattern with
    | some p => [Stage.grepStage p spec.caseInsensitive]
    | none => [])
  ++ (if spec.sortEnabled then [Stage.sortStage] else [])
  ++ (if spec.uniqueEnabled then [Stage.uniqStage] else [])
  ++ (match spec.headCount with
    | some n => [Stage.headStage n]
    | none => [])
  ++ (match spec.tailCount with
    | some n => [Stage.tailStage n]
    | none => [])
  ++ (match spec.countMode with
    | some m => [Stage.countStage m]
    | none => [])

/-- The effect of one remote pipeline stage on the lines of its input
stream, with the POSIX utility semantics the spec prescribes (grep as
pattern match, sort as stable ascending sort, uniq as adjacent-duplicate
collapse, head/tail as leading-N or trailing-N bound, wc as a one-line
count). -/
def runStage (ls : List String) (s : Stage) : List String :=
  match s with
  | .grepStage p ci => ls.filter (lineMatches p ci)
  | .sortStage => sortLines ls
  | .uniqStage => uniqLines ls
  | .headStage n => ls.take n
  | .tailStage n => ls.drop (ls.length - n)
  | .countStage m => [countText m ls]

/-- Remote execution of a rendered pipeline against a text: the stages are
applied left to right to the lines of the text, and the resulting stream
is the joined output. -/
def runRemote (stages : List Stage) (text : String) : String :=
  joinLines (stages.foldl runStage (splitLines text))

/-- The local line transform of `applyToText`, written directly over the
in-memory line list (spec §4.3). -/
def localLines (spec : FilterSpec) (text : String) : List String :=
  let l0 := splitLines text
  let l1 := match spec.grepPattern with
    | some p => l0.filter (lineMatches p spec.caseInsensitive)
    | none => l0
  let l2 := if spec.sortEnabled then sortLines l1 else l1
  let l3 := if spec.uniqueEnabled then uniqLines l2 else l2
  let l4 := match spec.headCount with
    | some n => l3.take n
    | none => l3
  match spec.tailCount with
  | some n => l4.drop (l4.length - n)
  | none => l4

/-- Modelled from the spec: `applyToText` applies the identical stage
sequence directly to an in-memory string (spec §4.3); the final count
transform is mutually exclusive with returning the filtered text.
(`src/filters.ts` is absent from the snapshot.) -/
def applyToText (spec : FilterSpec) (text : String) : String :=
  match spec.countMode with
  | some m => countText m (localLines spec text)
  | none => joinLines (localLines spec text)

/-- Modelled from the spec: `applyFilters(command, args)` appends the
rendered remote suffix to the command string (the callers in
`src/vm-tools.ts` and `src/docker-network-tools.ts` use it as
`command = applyFilters(command, args)`). -/
def applyFilters (command : String) (spec : FilterSpec) : String :=
  command ++ toRemoteSuffix spec

/-- Modelled from the spec: `applyFiltersToText(text, args)` applies the
filter spec locally to already-fetched text (used by
`registerDockerAdvancedTools`). -/
def applyFiltersToText (text : String) (spec : FilterSpec) : String :=
  applyToText spec text

/-! ## Logger (`src/logger.ts`) -/

/-- The log levels of `src/logger.ts`. -/
inductive LogLevel where
  | debug
  | info
  | warn
  | error
  | silent
deriving DecidableEq, Repr

/-- The numeric ranks of the log levels (`LOG_LEVELS` in `src/logger.ts`). -/
def LOG_LEVELS : LogLevel → Nat
  | .debug => 0
  | .info => 1
  | .warn => 2
  | .error => 3
  | .silent => 4

/-- `Logger.shouldLog`: a message level is output when its rank is at least
the rank of the configured level (`src/logger.ts` line 58). -/
def shouldLog (current lvl : LogLevel) : Bool :=
  LOG_LEVELS lvl ≥ LOG_LEVELS current

/-- The lowercase name of a level, as passed to `format`. -/
def levelName : LogLevel → String
  | .debug => "debug"
  | .info => "info"
  | .warn => "warn"
  | .error => "error"
  | .silent => "silent"

/-- Upper-casing of `level.toUpperCase()`, character by character. -/
def upperStr (s : String) : String :=
  String.mk (s.data.map Char.toUpper)

/-- `Logger.format`: `[LEVEL] message`, the level upper-cased, no
timestamp (`src/logger.ts` line 65). -/
def formatLog (level : String) (message : String) : String :=
  "[" ++ upperStr level ++ "] " ++ message

/-- The console channels a Node process can log to. -/
inductive ConsoleChannel where
  | log
  | err
deriving DecidableEq, Repr

/-- One write to the console: the channel and the string written. -/
structure ConsoleCall where
  channel : ConsoleChannel
  message : String
deriving DecidableEq, Repr

/-- `Logger.debug`: writes the formatted message via `console.error` when
`shouldLog("debug")` holds, else writes nothing (`src/logger.ts`
lines 71-75). -/
def logDebug (current : LogLevel) (msg : String) : List ConsoleCall :=
  if shouldLog current .debug then [⟨.err, formatLog "debug" msg⟩] else []

/-- `Logger.info` (`src/logger.ts` lines 80-84). -/
def logInfo (current : LogLevel) (msg : String) : List ConsoleCall :=
  if shouldLog current .info then [⟨.err, formatLog "info" msg⟩] else []

/-- `Logger.warn` (`src/logger.ts` lines 89-93). -/
def logWarn (current : LogLevel) (msg : String) : List ConsoleCall :=
  if shouldLog current .warn then [⟨.err, formatLog "warn" msg⟩] else []

/-- `Logger.error` (`src/logger.ts` lines 98-102). -/
def logError (current : LogLevel) (msg : String) : List ConsoleCall :=
  if shouldLog current .error then [⟨.err, formatLog "error" msg⟩] else []

/-- Dispatch to the logger method named by a (non-silent) message level. -/
def loggerCall (lvl : LogLevel) (current : LogLevel) (msg : String) : List ConsoleCall :=
  match lvl with
  | .debug => logDebug current msg
  | .info => logInfo current msg
  | .warn => logWarn current msg
  | .error => logError current msg
  | .silent => []

/-! ## SSH executor adapter (`src/index.ts`, embedded in `src/vm-tools.ts`
lines 489-496 of the snapshot) -/

/-- The command result returned by `SSHConnectionManager.executeCommand`
(spec §3: `{stdout, stderr, exitCode}`). -/
structure CommandResult where
  stdout : String
  stderr : String
  exitCode : Int
deriving DecidableEq, Repr

/-- `command.length > 100 ? command.substring(0, 100) + "..." : command`
(`src/index.ts`). -/
def cmdPreview (command : String) : String :=
  if 100 < command.length then command.take 100 ++ "..." else command

/-- The `sshExecutor` adapter of `main` in `src/index.ts`: converts the
manager's full `{stdout, stderr, exitCode}` response to a plain stdout
string, throwing an `Error` when the exit code is non-zero AND stderr is
non-empty (JS truthiness of `result.stderr`). -/
def sshExecutor (command : String) (result : CommandResult) : Except String String :=
  if result.exitCode ≠ 0 ∧ result.stderr ≠ "" then
    Except.error ("Command failed (exit " ++ toString result.exitCode ++ "): "
      ++ cmdPreview command ++ "\n" ++ result.stderr)
  else
    Except.ok result.stdout

/-- Whether an adapter call threw. -/
def raises (x : Except String String) : Bool :=
  match x with
  | .error _ => true
  | .ok _ => false

/-! ## Tool handlers (`src/vm-tools.ts`, `src/docker-network-tools.ts`)

A handler returns an MCP result: here the text of its single content item
and the `isError` flag (absent in the success responses of the source,
modelled as `false`).  The executor is a function from the command string
to either the command output or the thrown error's message.
-/

/-- The MCP tool result a handler resolves to. -/
structure ToolResult where
  text : String
  isError : Bool
deriving DecidableEq, Repr

/-- The executor a handler calls: either the output or a thrown error. -/
def Exec : Type := String → Except String String

/-- Arguments of tools taking a VM name plus output filters. -/
structure VMArgs where
  vm : String
  filters : FilterSpec

/-- The `vm list` handler (`src/vm-tools.ts` lines 24-49). -/
def vmListHandler (args : FilterSpec) (exec : Exec) : ToolResult :=
  match exec (applyFilters "virsh list --all" args) with
  | .ok output => ⟨"Virtual Machines:\n\n" ++ output, false⟩
  | .error e => ⟨"Error listing VMs: " ++ e, true⟩

/-- The `vm info` handler (`src/vm-tools.ts` lines 60-85). -/
def vmInfoHandler (args : VMArgs) (exec : Exec) : ToolResult :=
  match exec (applyFilters ("virsh dominfo " ++ args.vm) args.filters) with
  | .ok output => ⟨"VM Info - " ++ args.vm ++ ":\n\n" ++ output, false⟩
  | .error e => ⟨"Error getting VM info: " ++ e, true⟩

/-- The `vm vnc info` handler (`src/vm-tools.ts` lines 96-148), including
the inner try/catch around the XML fallback command. -/
def vmVncInfoHandler (args : VMArgs) (exec : Exec) : ToolResult :=
  match exec (applyFilters ("virsh vncdisplay " ++ args.vm) args.filters) with
  | .error e => ⟨"Error getting VNC info: " ++ e, true⟩
  | .ok output =>
    let result := output.trim
    if result = "" then
      match exec ("virsh dumpxml " ++ args.vm ++ " | grep -A 5 \"<graphics\"") with
      | .ok xmlOutput =>
        ⟨"VNC Info - " ++ args.vm
          ++ ":\n\nNo VNC display active. Graphics configuration:\n" ++ xmlOutput, false⟩
      | .error _ =>
        ⟨"VNC Info - " ++ args.vm
          ++ ":\n\nNo VNC display configured or VM is not running.", false⟩
    else
      ⟨"VNC Info - " ++ args.vm ++ ":\n\nVNC Display: " ++ result, false⟩

/-- Arguments of `vm libvirt logs` (`src/vm-tools.ts` lines 156-159). -/
structure LogsArgs where
  vm : Option String := none
  lines : Nat := 100
  filters : FilterSpec

/-- The `vm libvirt logs` handler (`src/vm-tools.ts` lines 161-205). -/
def vmLibvirtLogsHandler (args : LogsArgs) (exec : Exec) : ToolResult :=
  match args.vm with
  | some v =>
    match exec (applyFilters
        ("tail -n " ++ toString args.lines ++ " /var/log/libvirt/qemu/" ++ v ++ ".log")
        args.filters) with
    | .ok output =>
      ⟨"Libvirt Logs - " ++ v ++ " (last " ++ toString args.lines ++ " lines):\n\n"
        ++ output, false⟩
    | .error e => ⟨"Error reading libvirt logs: " ++ e, true⟩
  | none =>
    match exec (applyFilters
        "ls -lh /var/log/libvirt/qemu/*.log 2>/dev/null || echo 'No log files found'"
        args.filters) with
    | .ok output =>
      ⟨"Available Libvirt Log Files:\n\n" ++ output
        ++ "\n\nTo view logs for a specific VM, use the 'vm' parameter.", false⟩
    | .error e => ⟨"Error reading libvirt logs: " ++ e, true⟩

/-- Arguments of `docker list networks`. -/
structure NetworkListArgs where
  filter : Option String := none
  filters : FilterSpec

/-- The `docker list networks` handler (`src/docker-network-tools.ts`
lines 25-57). -/
def dockerListNetworksHandler (args : NetworkListArgs) (exec : Exec) : ToolResult :=
  let command := match args.filter with
    | some f => "docker network ls" ++ " --filter driver=" ++ f
    | none => "docker network ls"
  match exec (applyFilters command args.filters) with
  | .ok output => ⟨"Docker Networks:\n\n" ++ output, false⟩
  | .error e => ⟨"Error listing networks: " ++ e, true⟩

/-- The `docker inspect network` handler (`src/docker-network-tools.ts`
lines 68-100); `pretty` stands for the external
`JSON.stringify(JSON.parse(output), null, 2)` round-trip, whose throw is
caught by the handler's try/catch. -/
def dockerInspectNetworkHandler (args : VMArgs)
    (pretty : String → Except String String) (exec : Exec) : ToolResult :=
  match exec (applyFilters ("docker network inspect " ++ args.vm) args.filters) with
  | .error e => ⟨"Error inspecting network: " ++ e, true⟩
  | .ok output =>
    match pretty output with
    | .ok formatted =>
      ⟨"Docker Network Inspect - " ++ args.vm ++ ":\n\n" ++ formatted, false⟩
    | .error e => ⟨"Error inspecting network: " ++ e, true⟩

/-- Arguments of `docker list volumes`. -/
structure VolumeListArgs where
  dangling : Option Bool := none
  filters : FilterSpec

/-- The `docker list volumes` handler (`src/docker-network-tools.ts`
lines 111-145). -/
def dockerListVolumesHandler (args : VolumeListArgs) (exec : Exec) : ToolResult :=
  let command := match args.dangling with
    | some true => "docker volume ls" ++ " --filter dangling=true"
    | some false => "docker volume ls" ++ " --filter dangling=false"
    | none => "docker volume ls"
  match exec (applyFilters command args.filters) with
  | .ok output => ⟨"Docker Volumes:\n\n" ++ output, false⟩
  | .error e => ⟨"Error listing volumes: " ++ e, true⟩

/-- The `docker inspect volume` handler (`src/docker-network-tools.ts`
lines 156-188). -/
def dockerInspectVolumeHandler (args : VMArgs)
    (pretty : String → Except String String) (exec : Exec) : ToolResult :=
  match exec (applyFilters ("docker volume inspect " ++ args.vm) args.filters) with
  | .error e => ⟨"Error inspecting volume: " ++ e, true⟩
  | .ok output =>
    match pretty output with
    | .ok formatted =>
      ⟨"Docker Volume Inspect - " ++ args.vm ++ ":\n\n" ++ formatted, false⟩
    | .error e => ⟨"Error inspecting volume: " ++ e, true⟩

/-- The `docker network containers` handler (`src/docker-network-tools.ts`
lines 199-229). -/
def dockerNetworkContainersHandler (args : VMArgs) (exec : Exec) : ToolResult :=
  match exec (applyFilters
      ("docker network inspect " ++ args.vm
        ++ " --format '{{range $id, $container := .Containers}}{{$id}}: {{$container.Name}} ({{$container.IPv4Address}}){{println}}{{end}}'")
      args.filters) with
  | .error e => ⟨"Error getting network containers: " ++ e, true⟩
  | .ok output =>
    let result := if output.trim = "" then "No containers connected to this network." else output.trim
    ⟨"Containers on network " ++ args.vm ++ ":\n\n" ++ result, false⟩

/-! ## Platform registry (spec §4.2; `src/platforms/registry.ts` is absent
from the snapshot, so the registry is modelled from the spec) -/

/-- The shared command-executor function handed to detection probes. -/
def Executor : Type := String → Except String String

/-- Modelled from the spec: a platform candidate
`{id, displayName, capabilities, detect(executor) -> score,
toolModuleRefs}` (spec §3).  A probe either returns a confidence score or
raises. -/
structure Platform where
  id : String
  displayName : String
  capabilities : List String := []
  toolModuleRefs : List String := []
  detectScore : Executor → Except String Nat

/-- Modelled from the spec: the ordered platform registry with its
designated baseline candidate and minimum confidence floor (spec §4.2). -/
structure PlatformRegistry where
  platforms : List Platform
  baseline : Platform
  floor : Nat

/-- Modelled from the spec: `register(platform)` appends a candidate to the
ordered list; order is significant for tie-breaking (spec §4.2). -/
def PlatformRegistry.register (r : PlatformRegistry) (p : Platform) : PlatformRegistry :=
  { r with platforms := r.platforms ++ [p] }

/-- The selection pass of `detect`: walk the candidates in registration
order, skip candidates whose probe raises, and keep the candidate with the
strictly highest score seen so far (a tie keeps the earlier candidate). -/
def pickBest (e : Executor) : List Platform → Option (Platform × Nat) → Option (Platform × Nat)
  | [], acc => acc
  | p :: ps, acc =>
    match p.detectScore e with
    | .error _ => pickBest e ps acc
    | .ok t =>
      match acc with
      | none => pickBest e ps (some (p, t))
      | some (q, u) =>
        if u < t then pickBest e ps (some (p, t)) else pickBest e ps (some (q, u))

/-- Modelled from the spec: `detect(executor)` runs every probe in
registration order, discards probe errors, selects the strictly highest
score with earliest-registered tie-breaking, and falls back to the
baseline candidate when no candidate produced a usable score or the
highest score is below the confidence floor (spec §4.2).  Returning a
`Platform` (not an `Except`) is the formal rendering of "never raises and
never returns no selection". -/
def PlatformRegistry.detect (r : PlatformRegistry) (e : Executor) : Platform :=
  match pickBest e r.platforms none with
  | none => r.baseline
  | some (p, s) => if r.floor ≤ s then p else r.baseline

/-- Whether a candidate's probe returns exactly the score `s`. -/
def scoreIs (e : Executor) (s : Nat) (p : Platform) : Bool :=
  match p.detectScore e with
  | .ok t => t = s
  | .error _ => false

/-! ## Circuit breaker of the connection manager (spec §4.1;
`src/ssh-manager.ts` is absent from the snapshot, so the breaker state
machine is modelled from the spec) -/

/-- The breaker statuses (spec §3: `closed`, `open`, `half-open`).  In this
atomic-step model `halfOpen` is transient: an `opened` breaker whose
cool-down has elapsed lets the next call through as the half-open probe
within a single step. -/
inductive BreakerStatus where
  | closed
  | opened
  | halfOpen
deriving DecidableEq, Repr

/-- Modelled from the spec: the breaker configuration — failure threshold
(default 3) and cool-down window (spec §4.1, §6). -/
structure BreakerConfig where
  threshold : Nat := 3
  coolDownMs : Nat := 30000
deriving DecidableEq, Repr

/-- Modelled from the spec: the breaker state — status, consecutive
transport-failure count, and the time the breaker last opened (the
cool-down deadline is `openedAt + coolDownMs`). -/
structure BreakerState where
  status : BreakerStatus := .closed
  failures : Nat := 0
  openedAt : Nat := 0
deriving DecidableEq, Repr

/-- What the transport would do if the call were attempted: a
transport-level success carrying the command result (a non-zero exit code
is still a transport success, spec §4.1), or a transport-level failure
(connection loss, reconnect failure, timeout). -/
inductive TransportOutcome where
  | success (r : CommandResult)
  | failure
deriving DecidableEq, Repr

/-- What `execute` reports to its caller. -/
inductive ExecOutcome where
  | completed (r : CommandResult)
  | circuitOpenError
  | connectionError
deriving DecidableEq, Repr

/-- Modelled from the spec: one `execute` call against the breaker
(spec §4.1).  Returns the caller-visible outcome, the next breaker state,
and whether the network was touched.  While `opened` and inside the
cool-down window the call fast-fails with `CircuitOpenError` and no
network attempt; after the window the call is let through as the half-open
probe (success closes the breaker and resets the counter, failure reopens
it and restarts the cool-down); while `closed`, a transport success resets
the counter and a transport failure increments it, opening the breaker
when the counter reaches the threshold. -/
def executeStep (cfg : BreakerConfig) (st : BreakerState) (now : Nat)
    (net : TransportOutcome) : ExecOutcome × BreakerState × Bool :=
  match st.status with
  | .opened =>
    if now < st.openedAt + cfg.coolDownMs then
      (.circuitOpenError, st, false)
    else
      match net with
      | .success r => (.completed r, ⟨.closed, 0, st.openedAt⟩, true)
      | .failure => (.connectionError, ⟨.opened, st.failures + 1, now⟩, true)
  | .halfOpen =>
    match net with
    | .success r => (.completed r, ⟨.closed, 0, st.openedAt⟩, true)
    | .failure => (.connectionError, ⟨.opened, st.failures + 1, now⟩, true)
  | .closed =>
    match net with
    | .success r => (.completed r, ⟨.closed, 0, st.openedAt⟩, true)
    | .failure =>
      if cfg.threshold ≤ st.failures + 1 then
        (.connectionError, ⟨.opened, st.failures + 1, now⟩, true)
      else
        (.connectionError, ⟨.closed, st.failures + 1, st.openedAt⟩, true)

/-- Folds a sequence of timed transport outcomes through the breaker. -/
def runEvents (cfg : BreakerConfig) (st : BreakerState)
    (evs : List (Nat × TransportOutcome)) : BreakerState :=
  evs.foldl (fun s ev => (executeStep cfg s ev.1 ev.2).2.1) st

/-! ## Theorems -/

lemma formatLog_debug (msg : String) : formatLog "debug" msg = "[DEBUG] " ++ msg := rfl

lemma formatLog_info (msg : String) : formatLog "info" msg = "[INFO] " ++ msg := rfl

lemma formatLog_warn (msg : String) : formatLog "warn" msg = "[WARN] " ++ msg := rfl

lemma formatLog_err (msg : String) : formatLog "error" msg = "[ERROR] " ++ msg := rfl

/-- C6: `applyToText` with `{unique:true}` and no sort collapses only runs
of adjacent identical lines, never the full set: on "a\na\nb\na" it
returns "a\nb\na", while `{sort:true, unique:true}` on the same input
returns "a\nb". -/
theorem applyToText_adjacent_unique :
    applyToText { uniqueEnabled := true } "a\na\nb\na" = "a\nb\na"
    ∧ applyToText { sortEnabled := true, uniqueEnabled := true } "a\na\nb\na" = "a\nb" := by
  decide

/-- C9: each logger method writes exactly `[LEVEL] message` via
`console.error` precisely when the message level's rank is at least the
configured level's rank; at the `silent` level nothing is written; and no
logger method ever writes to `console.log` (every emitted call's channel
is `console.error`). -/
theorem logger_rank_filtering (c : LogLevel) (msg : String) :
    ((logDebug c msg = [⟨.err, "[DEBUG] " ++ msg⟩] ↔ LOG_LEVELS .debug ≥ LOG_LEVELS c)
      ∧ (logInfo c msg = [⟨.err, "[INFO] " ++ msg⟩] ↔ LOG_LEVELS .info ≥ LOG_LEVELS c)
      ∧ (logWarn c msg = [⟨.err, "[WARN] " ++ msg⟩] ↔ LOG_LEVELS .warn ≥ LOG_LEVELS c)
      ∧ (logError c msg = [⟨.err, "[ERROR] " ++ msg⟩] ↔ LOG_LEVELS .error ≥ LOG_LEVELS c))
    ∧ (logDebug .silent msg = [] ∧ logInfo .silent msg = []
      ∧ logWarn .silent msg = [] ∧ logError .silent msg = [])
    ∧ (∀ lvl : LogLevel, loggerCall lvl c msg = []
      ∨ loggerCall lvl c msg = [⟨.err, formatLog (levelName lvl) msg⟩]) := by
  refine ⟨?_, ⟨rfl, rfl, rfl, rfl⟩, ?_⟩
  · cases c <;>
      simp [logDebug, logInfo, logWarn, logError, shouldLog, LOG_LEVELS,
        formatLog_debug, formatLog_info, formatLog_warn, formatLog_err]
  · intro lvl
    cases lvl <;> cases c <;>
      simp [loggerCall, logDebug, logInfo, logWarn, logError, shouldLog, LOG_LEVELS,
        levelName]

/-- C10: the SSH executor adapter raises exactly when the command result
has both a non-zero exit code and a non-empty stderr; every non-raising
call returns only the stdout of the result (stderr is discarded). -/
theorem sshExecutor_raise_iff (c : String) (r : CommandResult) :
    (raises (sshExecutor c r) = true ↔ r.exitCode ≠ 0 ∧ r.stderr ≠ "")
    ∧ (raises (sshExecutor c r) = false ↔ sshExecutor c r = Except.ok r.stdout) := by
  by_cases h : r.exitCode ≠ 0 ∧ r.stderr ≠ ""
  · simp [sshExecutor, raises, h]
  · simp [sshExecutor, raises, h]

theorem sshExecutor_raise_iff_witness :
    raises (sshExecutor "ls" ⟨"out", "", 1⟩) = false
    ∧ sshExecutor "ls" ⟨"out", "", 1⟩ = Except.ok "out" :=
  ⟨by decide, (sshExecutor_raise_iff "ls" ⟨"out", "", 1⟩).2.mp (by decide)⟩

/-- C2 counterexample: a command result with non-zero exit code and
non-empty stderr is raised as an exception by the adapter, so it is not
surfaced as ordinary result data. -/
theorem sshExecutor_nonzero_exit_raises :
    raises (sshExecutor "docker ps" ⟨"", "permission denied", 1⟩) = true
    ∧ (1 : Int) ≠ 0 := by
  decide

/-- C2 (amended): a command result with non-zero exit code is surfaced as
ordinary result data (its stdout is returned, no exception) exactly when
its stderr is empty; when stderr is non-empty the adapter raises. -/
theorem sshExecutor_nonzero_exit_surfaced (c : String) (r : CommandResult)
    (hz : r.exitCode ≠ 0) :
    (r.stderr = "" → sshExecutor c r = Except.ok r.stdout)
    ∧ (r.stderr ≠ "" → raises (sshExecutor c r) = true) := by
  constructor
  · intro he
    simp [sshExecutor, he]
  · intro he
    simp [sshExecutor, raises, hz, he]

theorem sshExecutor_nonzero_exit_surfaced_witness :
    sshExecutor "uptime" ⟨"ok", "", 2⟩ = Except.ok "ok"
    ∧ raises (sshExecutor "uptime" ⟨"", "boom", 2⟩) = true :=
  ⟨(sshExecutor_nonzero_exit_surfaced "uptime" ⟨"ok", "", 2⟩ (by decide)).1 rfl,
    (sshExecutor_nonzero_exit_surfaced "uptime" ⟨"", "boom", 2⟩ (by decide)).2 (by decide)⟩

/-- C8: every modelled tool handler of `registerVMTools` and
`registerDockerNetworkTools` resolves to a result value when the executor
raises: the thrown error is caught and returned as a text result with
`isError` set.  (Handlers are total functions into `ToolResult`, so no
failure of the executor escapes as an exception.) -/
theorem handlers_catch_executor_errors
    (e : String) (fs : FilterSpec) (vm : String) (la : LogsArgs)
    (nla : NetworkListArgs) (vla : VolumeListArgs)
    (pretty : String → Except String String) :
    vmListHandler fs (fun _ => .error e) = ⟨"Error listing VMs: " ++ e, true⟩
    ∧ vmInfoHandler ⟨vm, fs⟩ (fun _ => .error e)
      = ⟨"Error getting VM info: " ++ e, true⟩
    ∧ vmVncInfoHandler ⟨vm, fs⟩ (fun _ => .error e)
      = ⟨"Error getting VNC info: " ++ e, true⟩
    ∧ vmLibvirtLogsHandler la (fun _ => .error e)
      = ⟨"Error reading libvirt logs: " ++ e, true⟩
    ∧ dockerListNetworksHandler nla (fun _ => .error e)
      = ⟨"Error listing networks: " ++ e, true⟩
    ∧ dockerInspectNetworkHandler ⟨vm, fs⟩ pretty (fun _ => .error e)
      = ⟨"Error inspecting network: " ++ e, true⟩
    ∧ dockerListVolumesHandler vla (fun _ => .error e)
      = ⟨"Error listing volumes: " ++ e, true⟩
    ∧ dockerInspectVolumeHandler ⟨vm, fs⟩ pretty (fun _ => .error e)
      = ⟨"Error inspecting volume: " ++ e, true⟩
    ∧ dockerNetworkContainersHandler ⟨vm, fs⟩ (fun _ => .error e)
      = ⟨"Error getting network containers: " ++ e, true⟩ := by
  refine ⟨rfl, rfl, rfl, ?_, ?_, rfl, ?_, rfl, rfl⟩
  · obtain ⟨v, n, f⟩ := la
    cases v <;> rfl
  · obtain ⟨fl, f⟩ := nla
    cases fl <;> rfl
  · obtain ⟨d, f⟩ := vla
    rcases d with _ | (_ | _) <;> rfl

lemma str_empty_append (s : String) : "" ++ s = s := rfl

lemma join_nil : String.join ([] : List String) = "" := rfl

lemma strFoldlAppend (l : List String) (a : String) :
    l.foldl (· ++ ·) a = a ++ l.foldl (· ++ ·) "" := by
  induction l generalizing a with
  | nil => simp [String.append_empty]
  | cons x xs ih =>
    simp only [List.foldl_cons]
    rw [ih (a ++ x), ih ("" ++ x), str_empty_append, String.append_assoc]

lemma join_cons (a : String) (l : List String) :
    String.join (a :: l) = a ++ String.join l := by
  show (a :: l).foldl (· ++ ·) "" = a ++ l.foldl (· ++ ·) ""
  simp only [List.foldl_cons, str_empty_append]
  exact strFoldlAppend l a

lemma toRemoteSuffix_eq_join (spec : FilterSpec) :
    toRemoteSuffix spec = String.join ((remoteStages spec).map renderStage) := by
  obtain ⟨g, ci, h, t, so, u, cm⟩ := spec
  cases g <;> cases so <;> cases u <;> cases h <;> cases t <;> cases cm <;>
    simp [toRemoteSuffix, remoteStages, renderStage, join_cons, join_nil,
      String.append_assoc, String.append_empty, str_empty_append] <;>
    rfl

lemma remoteStages_ordered (spec : FilterSpec) :
    List.Chain' (fun a b => kindRank (stageKind a) ≤ kindRank (stageKind b))
      (remoteStages spec) := by
  obtain ⟨g, ci, h, t, so, u, cm⟩ := spec
  cases g <;> cases so <;> cases u <;> cases h <;> cases t <;> cases cm <;>
    simp [remoteStages, stageKind, kindRank]

lemma remoteStages_mem_iff (spec : FilterSpec) (k : StageKind) :
    k ∈ (remoteStages spec).map stageKind ↔ fieldRequests spec k = true := by
  obtain ⟨g, ci, h, t, so, u, cm⟩ := spec
  cases k <;> cases g <;> cases so <;> cases u <;> cases h <;> cases t <;> cases cm <;>
    simp [remoteStages, stageKind, fieldRequests]

/-- C7: `toRemoteSuffix` is exactly the concatenation of the renderings of
its ordered stage list; the stages appear in the fixed order pattern
match → sort → deduplicate → head/tail bound → count (non-decreasing
kind rank), and a stage kind occurs in the list precisely when the
corresponding spec field is set. -/
theorem toRemoteSuffix_stage_order (spec : FilterSpec) :
    toRemoteSuffix spec = String.join ((remoteStages spec).map renderStage)
    ∧ List.Chain' (fun a b => kindRank (stageKind a) ≤ kindRank (stageKind b))
      (remoteStages spec)
    ∧ ∀ k : StageKind,
      (k ∈ (remoteStages spec).map stageKind ↔ fieldRequests spec k = true) :=
  ⟨toRemoteSuffix_eq_join spec, remoteStages_ordered spec,
    fun k => remoteStages_mem_iff spec k⟩

lemma joinLines_single (s : String) : joinLines [s] = s := rfl

/-- C1: for every FilterSpec and every finite input text, executing the
rendered remote pipeline (the ordered stage list of `toRemoteSuffix`, cf.
`toRemoteSuffix_eq_join`) against the text yields exactly
`applyToText` (`applyFiltersToText`) of the same spec and text. -/
theorem remote_local_equivalence (spec : FilterSpec) (text : String) :
    runRemote (remoteStages spec) text = applyFiltersToText text spec := by
  obtain ⟨g, ci, h, t, so, u, cm⟩ := spec
  cases g <;> cases so <;> cases u <;> cases h <;> cases t <;> cases cm <;>
    simp [runRemote, remoteStages, applyFiltersToText, applyToText, localLines,
      runStage, joinLines_single, List.foldl_append]

lemma pickBest_stay (e : Executor) (ps : List Platform) (p : Platform) (s : Nat)
    (hall : ∀ q ∈ ps, ∀ t, q.detectScore e = Except.ok t → t ≤ s) :
    pickBest e ps (some (p, s)) = some (p, s) := by
  induction ps with
  | nil => rfl
  | cons q qs ih =>
    have hall' : ∀ x ∈ qs, ∀ t, x.detectScore e = Except.ok t → t ≤ s :=
      fun x hx t ht => hall x (List.mem_cons_of_mem q hx) t ht
    cases hq : q.detectScore e with
    | error err =>
      simp only [pickBest, hq]
      exact ih hall'
    | ok t =>
      have ht : t ≤ s := hall q (List.mem_cons_self q qs) t hq
      simp only [pickBest, hq]
      rw [if_neg (by omega)]
      exact ih hall'

lemma pickBest_first (e : Executor) (s : Nat) :
    ∀ (ps : List Platform) (pStar : Platform) (acc : Option (Platform × Nat)),
    (∀ q ∈ ps, ∀ t, q.detectScore e = Except.ok t → t ≤ s) →
    (acc = none ∨ ∃ q u, acc = some (q, u) ∧ u < s) →
    ps.find? (scoreIs e s) = some pStar →
    pickBest e ps acc = some (pStar, s) := by
  intro ps
  induction ps with
  | nil =>
    intro pStar acc _ _ hfind
    simp at hfind
  | cons q qs ih =>
    intro pStar acc hall hacc hfind
    have hall' : ∀ x ∈ qs, ∀ t, x.detectScore e = Except.ok t → t ≤ s :=
      fun x hx t ht => hall x (List.mem_cons_of_mem q hx) t ht
    cases hq : q.detectScore e with
    | error err =>
      have hpred : scoreIs e s q = false := by simp [scoreIs, hq]
      rw [List.find?_cons, hpred] at hfind
      simp only [pickBest, hq]
      exact ih pStar acc hall' hacc hfind
    | ok t =>
      by_cases hts : t = s
      · rw [hts] at hq
        have hpred : scoreIs e s q = true := by simp [scoreIs, hq]
        rw [List.find?_cons, hpred] at hfind
        have hqp : q = pStar := by simpa using hfind
        subst hqp
        rcases hacc with hn | ⟨a, u, ha, hu⟩
        · subst hn
          simp only [pickBest, hq]
          exact pickBest_stay e qs q s hall'
        · subst ha
          simp only [pickBest, hq]
          rw [if_pos hu]
          exact pickBest_stay e qs q s hall'
      · have hlt : t < s :=
          lt_of_le_of_ne (hall q (List.mem_cons_self q qs) t hq) hts
        have hpred : scoreIs e s q = false := by simp [scoreIs, hq, hts]
        rw [List.find?_cons, hpred] at hfind
        rcases hacc with hn | ⟨a, u, ha, hu⟩
        · subst hn
          simp only [pickBest, hq]
          exact ih pStar (some (q, t)) hall' (Or.inr ⟨q, t, rfl, hlt⟩) hfind
        · subst ha
          simp only [pickBest, hq]
          by_cases hut : u < t
          · rw [if_pos hut]
            exact ih pStar (some (q, t)) hall' (Or.inr ⟨q, t, rfl, hlt⟩) hfind
          · rw [if_neg hut]
            exact ih pStar (some (a, u)) hall' (Or.inr ⟨a, u, rfl, hu⟩) hfind

lemma pickBest_below (e : Executor) (fl : Nat) :
    ∀ (ps : List Platform) (acc : Option (Platform × Nat)),
    (∀ q ∈ ps, ∀ t, q.detectScore e = Except.ok t → t < fl) →
    (acc = none ∨ ∃ q u, acc = some (q, u) ∧ u < fl) →
    (pickBest e ps acc = none
      ∨ ∃ q u, pickBest e ps acc = some (q, u) ∧ u < fl) := by
  intro ps
  induction ps with
  | nil =>
    intro acc _ hacc
    rcases hacc with hn | ⟨q, u, ha, hu⟩
    · exact Or.inl hn
    · exact Or.inr ⟨q, u, ha, hu⟩
  | cons q qs ih =>
    intro acc hall hacc
    have hall' : ∀ x ∈ qs, ∀ t, x.detectScore e = Except.ok t → t < fl :=
      fun x hx t ht => hall x (List.mem_cons_of_mem q hx) t ht
    cases hq : q.detectScore e with
    | error err =>
      simp only [pickBest, hq]
      exact ih acc hall' hacc
    | ok t =>
      have ht : t < fl := hall q (List.mem_cons_self q qs) t hq
      rcases hacc with hn | ⟨a, u, ha, hu⟩
      · subst hn
        simp only [pickBest, hq]
        exact ih (some (q, t)) hall' (Or.inr ⟨q, t, rfl, ht⟩)
      · subst ha
        simp only [pickBest, hq]
        by_cases hut : u < t
        · rw [if_pos hut]
          exact ih (some (q, t)) hall' (Or.inr ⟨q, t, rfl, ht⟩)
        · rw [if_neg hut]
          exact ih (some (a, u)) hall' (Or.inr ⟨a, u, rfl, hu⟩)

/-- C3: `detect` is a total function into `Platform` (so it never raises
and never returns "no selection", whatever executor it is invoked with),
and whenever every registered probe fails or every returned score is below
the confidence floor, it returns the designated baseline candidate. -/
theorem detect_baseline (r : PlatformRegistry) (e : Executor)
    (h : ∀ p ∈ r.platforms, ∀ t : Nat, p.detectScore e = Except.ok t → t < r.floor) :
    r.detect e = r.baseline := by
  unfold PlatformRegistry.detect
  rcases pickBest_below e r.floor r.platforms none h (Or.inl rfl) with hn | ⟨q, u, hq, hu⟩
  · rw [hn]
  · rw [hq]
    dsimp only
    rw [if_neg (Nat.not_le.mpr hu)]

theorem detect_baseline_witness :
    PlatformRegistry.detect
      ⟨[⟨"unraid", "Unraid", [], [], fun _ => Except.error "probe failed"⟩],
        ⟨"linux", "Generic Linux", [], [], fun _ => Except.ok 0⟩, 1⟩
      (fun _ => Except.ok "uname")
      = ⟨"linux", "Generic Linux", [], [], fun _ => Except.ok 0⟩ :=
  detect_baseline _ _ (by
    intro p hp t ht
    simp only [List.mem_singleton] at hp
    subst hp
    simp at ht)

/-- C5: in every registry whose candidates' successful scores are bounded
by `s` and whose floor is at most `s`, `detect` selects the first
(earliest-registered) candidate whose probe returns exactly `s`; in
particular, among two or more candidates tied at the maximal score the
earliest-registered one wins, and — `detect` being a pure function —
repeated runs over the same registry and executor return the same
selection. -/
theorem detect_tie_earliest (r : PlatformRegistry) (e : Executor) (s : Nat)
    (pStar : Platform)
    (hall : ∀ p ∈ r.platforms, ∀ t, p.detectScore e = Except.ok t → t ≤ s)
    (hfind : r.platforms.find? (scoreIs e s) = some pStar)
    (hfloor : r.floor ≤ s) :
    r.detect e = pStar := by
  unfold PlatformRegistry.detect
  rw [pickBest_first e s r.platforms pStar none hall (Or.inl rfl) hfind]
  dsimp only
  rw [if_pos hfloor]

theorem detect_tie_earliest_witness :
    PlatformRegistry.detect
      ⟨[⟨"unraid", "Unraid", [], [], fun _ => Except.ok 80⟩,
          ⟨"truenas", "TrueNAS", [], [], fun _ => Except.ok 80⟩],
        ⟨"linux", "Generic Linux", [], [], fun _ => Except.ok 0⟩, 50⟩
      (fun _ => Except.ok "probe output")
      = ⟨"unraid", "Unraid", [], [], fun _ => Except.ok 80⟩ :=
  detect_tie_earliest _ _ 80 _
    (by
      intro p hp t ht
      simp only [List.mem_cons, List.not_mem_nil, or_false] at hp
      rcases hp with h | h <;> (subst h; simp at ht; omega))
    rfl
    (by decide)

lemma runEvents_cons (cfg : BreakerConfig) (st : BreakerState)
    (ev : Nat × TransportOutcome) (evs : List (Nat × TransportOutcome)) :
    runEvents cfg st (ev :: evs)
      = runEvents cfg (executeStep cfg st ev.1 ev.2).2.1 evs := rfl

lemma runEvents_failures_open (cfg : BreakerConfig) :
    ∀ (ts : List Nat) (f a : Nat), ts ≠ [] → f + ts.length = cfg.threshold →
    (runEvents cfg ⟨.closed, f, a⟩ (ts.map fun t => (t, TransportOutcome.failure))).status
        = .opened
    ∧ (runEvents cfg ⟨.closed, f, a⟩ (ts.map fun t => (t, TransportOutcome.failure))).failures
        = cfg.threshold := by
  intro ts
  induction ts with
  | nil => intro f a hne _; exact absurd rfl hne
  | cons x xs ih =>
    intro f a _ hlen
    cases xs with
    | nil =>
      have hth : cfg.threshold ≤ f + 1 := by
        simp only [List.length_singleton] at hlen
        omega
      refine ⟨by simp [runEvents, executeStep, hth], ?_⟩
      simp [runEvents, executeStep, hth]
      simp only [List.length_singleton] at hlen
      omega
    | cons y rest =>
      have hth : ¬ cfg.threshold ≤ f + 1 := by
        simp only [List.length_cons] at hlen
        omega
      rw [List.map_cons, runEvents_cons]
      have hstep : (executeStep cfg ⟨.closed, f, a⟩ x TransportOutcome.failure).2.1
          = ⟨.closed, f + 1, a⟩ := by
        simp [executeStep, hth]
      rw [hstep]
      exact ih (f + 1) a (by simp) (by simp only [List.length_cons] at hlen ⊢; omega)

/-- C4: starting from a closed breaker with a zero counter, a run of
consecutive transport failures equal to the configured threshold leaves
the breaker open with the counter at the threshold; while the cool-down
window has not elapsed, the next `execute` call fails with
`CircuitOpenError` without touching the network (attempt flag `false`)
and without changing the state; once the cool-down has elapsed, one
successful half-open probe returns the command result, closes the
breaker, and leaves the consecutive-failure counter at zero. -/
theorem breaker_open_fastfail_probe_close (cfg : BreakerConfig)
    (hth : 0 < cfg.threshold) (times : List Nat)
    (hlen : times.length = cfg.threshold) (st : BreakerState)
    (hst : runEvents cfg ⟨.closed, 0, 0⟩
      (times.map fun t => (t, TransportOutcome.failure)) = st) :
    st.status = .opened ∧ st.failures = cfg.threshold
    ∧ (∀ (tF : Nat) (net : TransportOutcome),
        tF < st.openedAt + cfg.coolDownMs →
        executeStep cfg st tF net = (.circuitOpenError, st, false))
    ∧ (∀ (tP : Nat) (r : CommandResult),
        st.openedAt + cfg.coolDownMs ≤ tP →
        executeStep cfg st tP (.success r)
          = (.completed r, ⟨.closed, 0, st.openedAt⟩, true)) := by
  have hne : times ≠ [] := by
    intro h
    rw [h] at hlen
    simp at hlen
    omega
  obtain ⟨ho, hf⟩ := runEvents_failures_open cfg times 0 0 hne (by omega)
  rw [hst] at ho hf
  obtain ⟨sS, sF, sA⟩ := st
  simp only at ho hf
  subst ho
  refine ⟨rfl, hf, ?_, ?_⟩
  · intro tF net hlt
    simp only at hlt
    simp [executeStep, hlt]
  · intro tP r hge
    simp only at hge
    simp [executeStep, Nat.not_lt.mpr hge]

theorem breaker_open_fastfail_probe_close_witness :
    (⟨.opened, 3, 2⟩ : BreakerState).status = .opened
    ∧ executeStep ⟨3, 30000⟩ ⟨.opened, 3, 2⟩ 100 .failure
      = (.circuitOpenError, ⟨.opened, 3, 2⟩, false)
    ∧ executeStep ⟨3, 30000⟩ ⟨.opened, 3, 2⟩ 50000 (.success ⟨"ok", "", 0⟩)
      = (.completed ⟨"ok", "", 0⟩, ⟨.closed, 0, 2⟩, true) := by
  have h := breaker_open_fastfail_probe_close ⟨3, 30000⟩ (by decide) [0, 1, 2]
    (by decide) ⟨.opened, 3, 2⟩ (by decide)
  exact ⟨h.1, h.2.2.1 100 .failure (by decide), h.2.2.2 50000 ⟨"ok", "", 0⟩ (by decide)⟩
